import Mathlib

/-!
Shallow embedding of the nfx-stringbuilderpool core:
the growable byte buffer `DynamicStringBuffer` (src/src/StringBuilderPool.cpp),
the three-tier `DynamicStringBufferPool` (src/src/DynamicStringBufferPool.cpp),
and the `StringBuilderLease` handle (src/include/nfx/detail/string/StringBuilderPool.inl).

Modelling conventions:
- bytes are `Char`; a buffer is abstracted by its live content (the first
  `m_size` bytes of the active storage), so the field `m_data : List Char`
  stands for that live byte range and `size` is its length. The inline
  stack array and the heap allocation are not modelled separately; the
  `m_capacity` and `m_onHeap` fields track which storage is active exactly
  as in the source.
- `size_t` is `Nat`. The growth factor computation
  `static_cast<size_t>( m_capacity * GROWTH_FACTOR )` with the double
  constant `GROWTH_FACTOR = 1.5` truncates toward zero; for capacities in
  the exactly-representable range this equals `3 * m_capacity / 2` in
  natural-number division, which is how it is embedded.
- a C string argument is `Option (List Char)`: `none` is the null pointer,
  `some s` a terminated string whose content before the terminator is `s`.
-/

/-- Inline stack storage size of `DynamicStringBuffer`
(`STACK_BUFFER_SIZE = 256` in src/include/nfx/string/StringBuilderPool.h). -/
def STACK_BUFFER_SIZE : Nat := 256

/-- State of a `DynamicStringBuffer`: live content, committed capacity and
the storage discriminator, mirroring the fields `m_size` (as the length of
`m_data`), `m_capacity` and `m_onHeap` of the source class. -/
structure DynamicStringBuffer where
  m_data : List Char
  m_capacity : Nat
  m_onHeap : Bool
deriving DecidableEq, Repr

namespace DynamicStringBuffer

/-- `DynamicStringBuffer::size()`. -/
def size (b : DynamicStringBuffer) : Nat := b.m_data.length

/-- `DynamicStringBuffer::capacity()`. -/
def capacity (b : DynamicStringBuffer) : Nat := b.m_capacity

/-- `DynamicStringBuffer::isEmpty()`. -/
def isEmpty (b : DynamicStringBuffer) : Bool := b.size == 0

/-- Default constructor `DynamicStringBuffer()`: empty, inline storage. -/
def mkDefault : DynamicStringBuffer := ⟨[], STACK_BUFFER_SIZE, false⟩

/-- Constructor `DynamicStringBuffer( size_t initialCapacity )`. -/
def mkWithCapacity (initialCapacity : Nat) : DynamicStringBuffer :=
  if initialCapacity > STACK_BUFFER_SIZE then ⟨[], initialCapacity, true⟩
  else ⟨[], STACK_BUFFER_SIZE, false⟩

/-- `DynamicStringBuffer::ensureCapacity( size_t needed_capacity )`:
on demand grows to `max needed (floor (capacity * 1.5))`; a still-inline
buffer whose new capacity fits in the stack array is left untouched,
otherwise heap storage of the new capacity is committed and the live
bytes are copied over (content preserved). -/
def ensureCapacity (b : DynamicStringBuffer) (needed_capacity : Nat) :
    DynamicStringBuffer :=
  if needed_capacity ≤ b.m_capacity then b
  else
    let new_capacity := max needed_capacity (3 * b.m_capacity / 2)
    if b.m_onHeap = false ∧ new_capacity ≤ STACK_BUFFER_SIZE then b
    else ⟨b.m_data, new_capacity, true⟩

/-- `DynamicStringBuffer::clear()`: `m_size = 0`, nothing else changes. -/
def clear (b : DynamicStringBuffer) : DynamicStringBuffer :=
  { b with m_data := [] }

/-- `DynamicStringBuffer::reserve( size_t newCapacity )`. -/
def reserve (b : DynamicStringBuffer) (newCapacity : Nat) : DynamicStringBuffer :=
  if newCapacity > b.m_capacity then b.ensureCapacity newCapacity else b

/-- `DynamicStringBuffer::resize( size_t newSize )`. The source leaves bytes
past the old size unspecified (heap allocations from `std::make_unique` are
value-initialized, the stack array is not); the model fills them with NUL.
No theorem below depends on those filler bytes. -/
def resize (b : DynamicStringBuffer) (newSize : Nat) : DynamicStringBuffer :=
  let b1 := b.ensureCapacity newSize
  { b1 with
    m_data := (b1.m_data ++ List.replicate (newSize - b1.m_data.length) (Char.ofNat 0)).take newSize }

/-- `DynamicStringBuffer::append( std::string_view str )`. -/
def append (b : DynamicStringBuffer) (str : List Char) : DynamicStringBuffer :=
  if str.isEmpty then b
  else
    let new_size := b.size + str.length
    let b1 := b.ensureCapacity new_size
    { b1 with m_data := b1.m_data ++ str }

/-- `DynamicStringBuffer::append( const std::string& str )`: delegates to the
string_view overload. -/
def appendStdString (b : DynamicStringBuffer) (str : List Char) : DynamicStringBuffer :=
  b.append str

/-- `DynamicStringBuffer::append( const char* str )`: a null pointer is a
no-op, otherwise the bytes up to the terminator are appended. -/
def appendCString (b : DynamicStringBuffer) : Option (List Char) → DynamicStringBuffer
  | none => b
  | some s => b.append s

/-- `DynamicStringBuffer::push_back( char c )`. -/
def push_back (b : DynamicStringBuffer) (c : Char) : DynamicStringBuffer :=
  let b1 := b.ensureCapacity (b.size + 1)
  { b1 with m_data := b1.m_data ++ [c] }

/-- `DynamicStringBuffer::toString()`: copy of the live byte range. -/
def toString (b : DynamicStringBuffer) : List Char := b.m_data

/-- Copy assignment `operator=( const DynamicStringBuffer& other )` for two
distinct objects (the source guards self-assignment by address identity).
Copies the content; adopts heap storage of the capacity of `other` when
`other` is on the heap and this buffer cannot hold it, and falls back to
the stack array (capacity reset to `STACK_BUFFER_SIZE`) when `other` is
inline and this buffer was on the heap. -/
def copyAssign (b other : DynamicStringBuffer) : DynamicStringBuffer :=
  if other.m_onHeap then
    if b.m_onHeap = false ∨ b.m_capacity < other.m_capacity then
      ⟨other.m_data, other.m_capacity, true⟩
    else
      ⟨other.m_data, b.m_capacity, true⟩
  else
    if b.m_onHeap then ⟨other.m_data, STACK_BUFFER_SIZE, false⟩
    else ⟨other.m_data, b.m_capacity, false⟩

/-- Move constructor `DynamicStringBuffer( DynamicStringBuffer&& other )`:
returns the new buffer and the reset source (`size 0`, inline,
`capacity = STACK_BUFFER_SIZE`). -/
def moveCtor (other : DynamicStringBuffer) :
    DynamicStringBuffer × DynamicStringBuffer :=
  (⟨other.m_data, other.m_capacity, other.m_onHeap⟩, ⟨[], STACK_BUFFER_SIZE, false⟩)

/-- Move assignment `operator=( DynamicStringBuffer&& other )` for two
distinct objects: the destination takes the fields of `other` and the
source is reset, as in the move constructor. -/
def moveAssign (_b other : DynamicStringBuffer) :
    DynamicStringBuffer × DynamicStringBuffer :=
  (⟨other.m_data, other.m_capacity, other.m_onHeap⟩, ⟨[], STACK_BUFFER_SIZE, false⟩)

end DynamicStringBuffer

/-- Configuration constants of `DynamicStringBufferPool` (constructor
parameters, fixed at construction). -/
structure PoolConfig where
  m_initialCapacity : Nat
  m_maximumRetainedCapacity : Nat
  m_maxPoolSize : Nat
deriving DecidableEq, Repr

/-- The singleton `dynamicStringBufferPool()` is constructed with
`{ 256, 2048, 24 }` (src/src/DynamicStringBufferPool.h). -/
def defaultPoolConfig : PoolConfig := ⟨256, 2048, 24⟩

/-- The statistics block `DynamicStringBufferPool::PoolStatistics`
(atomic counters embedded as plain naturals: all claims below concern a
single thread of execution, where relaxed atomics read and write like
plain variables). -/
structure PoolStatistics where
  threadLocalHits : Nat
  dynamicStringBufferPoolHits : Nat
  newAllocations : Nat
  totalRequests : Nat
deriving DecidableEq, Repr

/-- All-zero statistics, the state after `PoolStatistics::reset()` and at
construction. -/
def PoolStatistics.zero : PoolStatistics := ⟨0, 0, 0, 0⟩

/-- Mutable state of the pool as seen by one thread: the thread-local
single-slot cache `t_cachedBuffer`, the shared vector `m_pool` (back of the
vector = last list element), and the statistics. Buffers are held by value;
the source holds owning pointers, and a buffer the state does not store is
deallocated. -/
structure PoolState where
  t_cachedBuffer : Option DynamicStringBuffer
  m_pool : List DynamicStringBuffer
  m_stats : PoolStatistics
deriving DecidableEq, Repr

/-- Pool state at process start: empty slot, empty shared pool, zero
statistics. -/
def initialPoolState : PoolState := ⟨none, [], PoolStatistics.zero⟩

namespace DynamicStringBufferPool

/-- `DynamicStringBufferPool::get()`: bumps `totalRequests`, then takes the
thread-local buffer (clearing it), else pops the back of the shared pool
(clearing it), else allocates a fresh buffer reserved to
`m_initialCapacity`; each path bumps its tier counter. -/
def get (cfg : PoolConfig) (s : PoolState) : DynamicStringBuffer × PoolState :=
  let stats0 := { s.m_stats with totalRequests := s.m_stats.totalRequests + 1 }
  match s.t_cachedBuffer with
  | some buffer =>
      (buffer.clear,
        { s with
          t_cachedBuffer := none,
          m_stats := { stats0 with threadLocalHits := stats0.threadLocalHits + 1 } })
  | none =>
      match s.m_pool.getLast? with
      | some buffer =>
          (buffer.clear,
            { s with
              m_pool := s.m_pool.dropLast,
              m_stats :=
                { stats0 with
                  dynamicStringBufferPoolHits := stats0.dynamicStringBufferPoolHits + 1 } })
      | none =>
          (DynamicStringBuffer.mkDefault.reserve cfg.m_initialCapacity,
            { s with
              m_stats := { stats0 with newAllocations := stats0.newAllocations + 1 } })

/-- `DynamicStringBufferPool::returnToPool( DynamicStringBuffer* buffer )`:
null is a no-op; a buffer over `m_maximumRetainedCapacity` is deleted; else
the empty thread-local slot takes it; else it is pushed on the shared pool
when below `m_maxPoolSize`, otherwise deleted. -/
def returnToPool (cfg : PoolConfig) (s : PoolState)
    (buffer : Option DynamicStringBuffer) : PoolState :=
  match buffer with
  | none => s
  | some buf =>
      if buf.capacity > cfg.m_maximumRetainedCapacity then s
      else
        match s.t_cachedBuffer with
        | none => { s with t_cachedBuffer := some buf }
        | some _ =>
            if s.m_pool.length < cfg.m_maxPoolSize then
              { s with m_pool := s.m_pool ++ [buf] }
            else s

/-- `DynamicStringBufferPool::clear()`: frees every shared-pool buffer and
the calling thread cached buffer, returning how many were freed. -/
def clear (s : PoolState) : Nat × PoolState :=
  let clearedCount :=
    s.m_pool.length + (if s.t_cachedBuffer.isSome then 1 else 0)
  (clearedCount, { s with m_pool := [], t_cachedBuffer := none })

/-- `DynamicStringBufferPool::size()`: shared-pool count plus one when the
calling thread slot is occupied. -/
def size (s : PoolState) : Nat :=
  s.m_pool.length + (if s.t_cachedBuffer.isSome then 1 else 0)

/-- `DynamicStringBufferPool::resetStats()` via `PoolStatistics::reset()`. -/
def resetStats (s : PoolState) : PoolState :=
  { s with m_stats := PoolStatistics.zero }

end DynamicStringBufferPool

namespace StringBuilderPool

/-- `StringBuilderPool::clear()`: resets the statistics, then clears the
pool and returns the freed count (src/src/StringBuilderPool.cpp). -/
def clear (s : PoolState) : Nat × PoolState :=
  DynamicStringBufferPool.clear (DynamicStringBufferPool.resetStats s)

/-- `StringBuilderPool::size()`. -/
def size (s : PoolState) : Nat := DynamicStringBufferPool.size s

end StringBuilderPool

/-- The failure raised by `StringBuilderLease::throwInvalidOperation()`:
accessing a lease after it was returned to the pool. -/
inductive LeaseError where
  | invalidState
deriving DecidableEq, Repr

/-- `StringBuilderLease`: the wrapped buffer pointer (`none` = null) and the
validity flag. -/
structure StringBuilderLease where
  m_buffer : Option DynamicStringBuffer
  m_valid : Bool
deriving DecidableEq, Repr

namespace StringBuilderLease

/-- `StringBuilderLease::create()`: invalid-state error when disposed, else
a `StringBuilder` view of the buffer (the view is pure delegation, so it is
embedded as the buffer itself). A valid lease made by the pool always holds
a non-null buffer; the model maps the impossible null dereference to the
same error. -/
def create (l : StringBuilderLease) : Except LeaseError DynamicStringBuffer :=
  if l.m_valid then
    match l.m_buffer with
    | some b => Except.ok b
    | none => Except.error LeaseError.invalidState
  else Except.error LeaseError.invalidState

/-- `StringBuilderLease::buffer()`: invalid-state error when disposed, else
the wrapped buffer. -/
def bufferOf (l : StringBuilderLease) : Except LeaseError DynamicStringBuffer :=
  if l.m_valid then
    match l.m_buffer with
    | some b => Except.ok b
    | none => Except.error LeaseError.invalidState
  else Except.error LeaseError.invalidState

/-- `StringBuilderLease::toString()`: invalid-state error when disposed,
else the buffer content as an owned string. -/
def toString (l : StringBuilderLease) : Except LeaseError (List Char) :=
  if l.m_valid then
    match l.m_buffer with
    | some b => Except.ok b.toString
    | none => Except.error LeaseError.invalidState
  else Except.error LeaseError.invalidState

/-- `StringBuilderLease::dispose()` (also the destructor body): when valid,
hands the buffer pointer to `returnToPool` and invalidates the lease; a
disposed lease is untouched. The third component records the non-null
buffers passed to `returnToPool` by this call, to state how often a buffer
is released. -/
def dispose (cfg : PoolConfig) (l : StringBuilderLease) (p : PoolState) :
    StringBuilderLease × PoolState × List DynamicStringBuffer :=
  if l.m_valid then
    (⟨none, false⟩, DynamicStringBufferPool.returnToPool cfg p l.m_buffer,
      l.m_buffer.toList)
  else (l, p, [])

/-- Move constructor `StringBuilderLease( StringBuilderLease&& other )`:
the new lease exchanges the fields out of `other`, which is left null and
invalid. Returns (destination, moved-from source). -/
def moveCtor (other : StringBuilderLease) :
    StringBuilderLease × StringBuilderLease :=
  (⟨other.m_buffer, other.m_valid⟩, ⟨none, false⟩)

/-- Move assignment `operator=( StringBuilderLease&& other )` between two
distinct leases (the source guards self-assignment by address identity):
disposes the destination, then exchanges the fields out of `other`.
Returns (destination, source, pool, buffers handed to `returnToPool`). -/
def moveAssign (cfg : PoolConfig) (dest other : StringBuilderLease)
    (p : PoolState) :
    StringBuilderLease × StringBuilderLease × PoolState × List DynamicStringBuffer :=
  let d := dispose cfg dest p
  (⟨other.m_buffer, other.m_valid⟩, ⟨none, false⟩, d.2.1, d.2.2)

end StringBuilderLease

/-- `StringBuilderPool::lease()`: wraps the buffer obtained from the pool
in a fresh valid lease. -/
def StringBuilderPool.lease (cfg : PoolConfig) (s : PoolState) :
    StringBuilderLease × PoolState :=
  let g := DynamicStringBufferPool.get cfg s
  (⟨some g.1, true⟩, g.2)

/-- One append call on a `DynamicStringBuffer`, through any of the four
public entry points (`append(string_view)`, `append(const std::string&)`,
`append(const char*)`, `push_back(char)`). -/
inductive AppendOp where
  | viaStringView (s : List Char)
  | viaStdString (s : List Char)
  | viaCString (s : Option (List Char))
  | viaPushBack (c : Char)
deriving DecidableEq, Repr

/-- The byte sequence an append call appends: the view or string content,
the C-string content before its terminator (nothing for null), or the
single byte of `push_back`. -/
def AppendOp.bytes : AppendOp → List Char
  | .viaStringView s => s
  | .viaStdString s => s
  | .viaCString none => []
  | .viaCString (some s) => s
  | .viaPushBack c => [c]

/-- Execute one append call on a buffer. -/
def DynamicStringBuffer.applyAppend (b : DynamicStringBuffer) :
    AppendOp → DynamicStringBuffer
  | .viaStringView s => b.append s
  | .viaStdString s => b.appendStdString s
  | .viaCString s => b.appendCString s
  | .viaPushBack c => b.push_back c

/-- Execute a sequence of append calls, first element first. -/
def DynamicStringBuffer.applyAppends (b : DynamicStringBuffer) :
    List AppendOp → DynamicStringBuffer
  | [] => b
  | op :: rest => (b.applyAppend op).applyAppends rest

/-- One mutating buffer operation of the public interface other than
assignment: the four append entry points, `clear`, `reserve`, `resize`. -/
inductive BufferOp where
  | opAppend (s : List Char)
  | opAppendStdString (s : List Char)
  | opAppendCString (s : Option (List Char))
  | opPushBack (c : Char)
  | opClear
  | opReserve (n : Nat)
  | opResize (n : Nat)
deriving DecidableEq, Repr

/-- Execute one mutating buffer operation. -/
def DynamicStringBuffer.applyBufferOp (b : DynamicStringBuffer) :
    BufferOp → DynamicStringBuffer
  | .opAppend s => b.append s
  | .opAppendStdString s => b.appendStdString s
  | .opAppendCString s => b.appendCString s
  | .opPushBack c => b.push_back c
  | .opClear => b.clear
  | .opReserve n => b.reserve n
  | .opResize n => b.resize n

/-- One pool operation as invoked by a single thread: acquire a buffer,
release a buffer pointer, the internal pool clear, the public
`StringBuilderPool::clear()`, or a statistics reset. -/
inductive PoolOp where
  | opAcquire
  | opRelease (buffer : Option DynamicStringBuffer)
  | opPoolClear
  | opClearAll
  | opResetStats
deriving DecidableEq, Repr

/-- Execute one pool operation, keeping only the pool state. -/
def PoolState.applyPoolOp (cfg : PoolConfig) (s : PoolState) : PoolOp → PoolState
  | .opAcquire => (DynamicStringBufferPool.get cfg s).2
  | .opRelease b => DynamicStringBufferPool.returnToPool cfg s b
  | .opPoolClear => (DynamicStringBufferPool.clear s).2
  | .opClearAll => (StringBuilderPool.clear s).2
  | .opResetStats => DynamicStringBufferPool.resetStats s

/-- Execute a sequence of pool operations, first element first. -/
def PoolState.applyPoolOps (cfg : PoolConfig) (s : PoolState) :
    List PoolOp → PoolState
  | [] => s
  | op :: rest => PoolState.applyPoolOps cfg (s.applyPoolOp cfg op) rest

/-- The statistics ledger balances: every request was served by exactly one
of the three tiers. -/
def PoolStatistics.consistent (st : PoolStatistics) : Prop :=
  st.totalRequests
    = st.threadLocalHits + st.dynamicStringBufferPoolHits + st.newAllocations

/-- Every buffer held in a tier is within the retained-capacity bound. -/
def PoolState.retentionInv (cfg : PoolConfig) (s : PoolState) : Prop :=
  (∀ b ∈ s.t_cachedBuffer.toList, b.capacity ≤ cfg.m_maximumRetainedCapacity)
    ∧ ∀ b ∈ s.m_pool, b.capacity ≤ cfg.m_maximumRetainedCapacity

/-- One acquire-then-release round performed by a single thread with no
concurrent interleavers: `get` followed by `returnToPool` of the obtained
buffer. -/
def PoolState.cycle (cfg : PoolConfig) (s : PoolState) : PoolState :=
  DynamicStringBufferPool.returnToPool cfg (DynamicStringBufferPool.get cfg s).2
    (some (DynamicStringBufferPool.get cfg s).1)

/-- `n` sequential acquire-then-release rounds. -/
def PoolState.cycles (cfg : PoolConfig) (s : PoolState) : Nat → PoolState
  | 0 => s
  | n + 1 => PoolState.cycles cfg (s.cycle cfg) n

namespace DynamicStringBuffer

/-- Growing storage copies the live bytes: `ensureCapacity` preserves the
content. -/
theorem ensureCapacity_data (b : DynamicStringBuffer) (n : Nat) :
    (b.ensureCapacity n).m_data = b.m_data := by
  unfold ensureCapacity
  split
  · rfl
  · dsimp only
    split <;> rfl

/-- `append` concatenates the given bytes onto the live content. -/
theorem append_data (b : DynamicStringBuffer) (s : List Char) :
    (b.append s).m_data = b.m_data ++ s := by
  unfold append
  split
  · rename_i h
    rw [List.isEmpty_iff] at h
    simp [h]
  · simp [ensureCapacity_data]

/-- `push_back` appends the single byte onto the live content. -/
theorem push_back_data (b : DynamicStringBuffer) (c : Char) :
    (b.push_back c).m_data = b.m_data ++ [c] := by
  unfold push_back
  simp [ensureCapacity_data]

/-- Each append entry point appends exactly its byte sequence. -/
theorem applyAppend_data (b : DynamicStringBuffer) (op : AppendOp) :
    (b.applyAppend op).m_data = b.m_data ++ op.bytes := by
  cases op with
  | viaStringView s => exact append_data b s
  | viaStdString s => exact append_data b s
  | viaCString s =>
      cases s with
      | none => simp [applyAppend, appendCString, AppendOp.bytes]
      | some s => simpa [applyAppend, appendCString, AppendOp.bytes] using append_data b s
  | viaPushBack c => exact push_back_data b c

/-- A sequence of append calls concatenates all byte sequences onto the
initial content. -/
theorem applyAppends_data (ops : List AppendOp) (b : DynamicStringBuffer) :
    (b.applyAppends ops).m_data = b.m_data ++ (ops.map AppendOp.bytes).flatten := by
  induction ops generalizing b with
  | nil => simp [applyAppends]
  | cons op rest ih =>
      rw [applyAppends, ih, applyAppend_data]
      simp

end DynamicStringBuffer

/-- Claim C1: for every sequence of append calls (string_view, std::string,
C-string, or push_back) on a `DynamicStringBuffer` starting empty,
`toString()` after each append equals the concatenation of all byte
sequences appended so far, and `size()` equals the total number of bytes
appended. (The statement quantifies over all call sequences, so it holds
in particular after every prefix of a longer sequence.) -/
theorem C1_append_content_roundtrip (ops : List AppendOp) :
    (DynamicStringBuffer.mkDefault.applyAppends ops).toString
        = (ops.map AppendOp.bytes).flatten
      ∧ (DynamicStringBuffer.mkDefault.applyAppends ops).size
        = ((ops.map AppendOp.bytes).flatten).length := by
  have h : (DynamicStringBuffer.mkDefault.applyAppends ops).m_data
      = (ops.map AppendOp.bytes).flatten := by
    have h0 := DynamicStringBuffer.applyAppends_data ops DynamicStringBuffer.mkDefault
    rw [h0]
    rfl
  exact ⟨h, by simp only [DynamicStringBuffer.size, h]⟩

namespace DynamicStringBuffer

/-- Once on the heap, `ensureCapacity` keeps the buffer on the heap and
never decreases the capacity. -/
theorem ensureCapacity_heap_mono (b : DynamicStringBuffer) (n : Nat)
    (h : b.m_onHeap = true) :
    (b.ensureCapacity n).m_onHeap = true
      ∧ b.m_capacity ≤ (b.ensureCapacity n).m_capacity := by
  unfold ensureCapacity
  split
  · exact ⟨h, Nat.le_refl _⟩
  · rename_i hn
    dsimp only
    rw [if_neg (by simp [h])]
    refine ⟨rfl, ?_⟩
    exact le_trans (Nat.le_of_lt (Nat.lt_of_not_le hn)) (le_max_left _ _)

end DynamicStringBuffer

/-- Claim C2 (amended): once the `onHeap` discriminator of a buffer is
true, none of the mutating operations `append` (any overload),
`push_back`, `clear`, `reserve` or `resize` ever makes it false again,
and the capacity never drops (in particular never back to the inline
constant). The original claim also covered copy assignment and move
construction/assignment, which the code contradicts (see the
counterexample): copy assignment from an inline-storage source resets the
target to inline storage, and moving from a buffer resets the moved-from
object to inline storage. -/
theorem C2_heap_promotion_one_directional (b : DynamicStringBuffer)
    (op : BufferOp) (h : b.m_onHeap = true) :
    (b.applyBufferOp op).m_onHeap = true
      ∧ b.capacity ≤ (b.applyBufferOp op).capacity := by
  cases op with
  | opAppend s =>
      show (b.append s).m_onHeap = true ∧ b.m_capacity ≤ (b.append s).m_capacity
      unfold DynamicStringBuffer.append
      split
      · exact ⟨h, Nat.le_refl _⟩
      · dsimp only
        exact b.ensureCapacity_heap_mono _ h
  | opAppendStdString s =>
      show (b.append s).m_onHeap = true ∧ b.m_capacity ≤ (b.append s).m_capacity
      unfold DynamicStringBuffer.append
      split
      · exact ⟨h, Nat.le_refl _⟩
      · dsimp only
        exact b.ensureCapacity_heap_mono _ h
  | opAppendCString s =>
      cases s with
      | none => exact ⟨h, Nat.le_refl _⟩
      | some s =>
          show (b.append s).m_onHeap = true ∧ b.m_capacity ≤ (b.append s).m_capacity
          unfold DynamicStringBuffer.append
          split
          · exact ⟨h, Nat.le_refl _⟩
          · dsimp only
            exact b.ensureCapacity_heap_mono _ h
  | opPushBack c =>
      show (b.push_back c).m_onHeap = true ∧ b.m_capacity ≤ (b.push_back c).m_capacity
      unfold DynamicStringBuffer.push_back
      dsimp only
      exact b.ensureCapacity_heap_mono _ h
  | opClear => exact ⟨h, Nat.le_refl _⟩
  | opReserve n =>
      show (b.reserve n).m_onHeap = true ∧ b.m_capacity ≤ (b.reserve n).m_capacity
      unfold DynamicStringBuffer.reserve
      split
      · exact b.ensureCapacity_heap_mono _ h
      · exact ⟨h, Nat.le_refl _⟩
  | opResize n =>
      show (b.resize n).m_onHeap = true ∧ b.m_capacity ≤ (b.resize n).m_capacity
      unfold DynamicStringBuffer.resize
      dsimp only
      exact b.ensureCapacity_heap_mono _ h

/-- Claim C2, witness for the amended theorem at a concrete heap buffer and
the `clear` operation. -/
theorem C2_heap_promotion_one_directional_witness :
    (DynamicStringBuffer.mkWithCapacity 300).m_onHeap = true
      ∧ (((DynamicStringBuffer.mkWithCapacity 300).applyBufferOp BufferOp.opClear).m_onHeap = true
          ∧ (DynamicStringBuffer.mkWithCapacity 300).capacity
              ≤ ((DynamicStringBuffer.mkWithCapacity 300).applyBufferOp BufferOp.opClear).capacity) :=
  ⟨by decide,
   C2_heap_promotion_one_directional (DynamicStringBuffer.mkWithCapacity 300)
     BufferOp.opClear (by decide)⟩

set_option maxRecDepth 4000 in
/-- Claim C2, counterexample to the original statement: a default buffer
promoted to the heap by appending 300 bytes (discriminator true) is reset
to inline storage (discriminator false, capacity back at the inline
constant 256) by copy assignment from a default inline buffer. -/
theorem C2_counterexample_copy_assignment_demotes :
    ((DynamicStringBuffer.mkDefault.append (List.replicate 300 'a')).m_onHeap = true)
      ∧ (((DynamicStringBuffer.mkDefault.append (List.replicate 300 'a')).copyAssign
            DynamicStringBuffer.mkDefault).m_onHeap = false)
      ∧ (((DynamicStringBuffer.mkDefault.append (List.replicate 300 'a')).copyAssign
            DynamicStringBuffer.mkDefault).capacity = STACK_BUFFER_SIZE) := by
  decide

/-- Claim C5: when a needed size exceeds the current capacity, the growth
target is `max needed (floor (capacity * 1.5))`; a still-inline buffer
whose target fits in `STACK_BUFFER_SIZE` is left unchanged (no
reallocation), otherwise the result is heap storage of the target capacity
holding the same live bytes. The `append` and `push_back` entry points
drive their storage through exactly this `ensureCapacity` policy with
needed size `size + length` respectively `size + 1`. -/
theorem C5_growth_policy (b : DynamicStringBuffer) (needed : Nat)
    (s : List Char) (c : Char)
    (h : needed > b.capacity) (hs : s.isEmpty = false) :
    b.ensureCapacity needed
        = (if b.m_onHeap = false ∧ max needed (3 * b.capacity / 2) ≤ STACK_BUFFER_SIZE
           then b
           else ⟨b.m_data, max needed (3 * b.capacity / 2), true⟩)
      ∧ ((b.append s).capacity = (b.ensureCapacity (b.size + s.length)).capacity
          ∧ (b.append s).m_onHeap = (b.ensureCapacity (b.size + s.length)).m_onHeap)
      ∧ ((b.push_back c).capacity = (b.ensureCapacity (b.size + 1)).capacity
          ∧ (b.push_back c).m_onHeap = (b.ensureCapacity (b.size + 1)).m_onHeap) := by
  refine ⟨?_, ?_, ?_⟩
  · show b.ensureCapacity needed = _
    unfold DynamicStringBuffer.ensureCapacity
    simp only [DynamicStringBuffer.capacity] at h ⊢
    rw [if_neg (Nat.not_le_of_lt h)]
  · unfold DynamicStringBuffer.append
    rw [if_neg (by simp [hs])]
    exact ⟨rfl, rfl⟩
  · exact ⟨rfl, rfl⟩

/-- Claim C5, witness: a default inline buffer of capacity 256 asked for
300 bytes grows to heap storage of capacity `max 300 384 = 384`. -/
theorem C5_growth_policy_witness :
    300 > DynamicStringBuffer.mkDefault.capacity
      ∧ (DynamicStringBuffer.mkDefault.ensureCapacity 300
            = (if DynamicStringBuffer.mkDefault.m_onHeap = false
                  ∧ max 300 (3 * DynamicStringBuffer.mkDefault.capacity / 2) ≤ STACK_BUFFER_SIZE
               then DynamicStringBuffer.mkDefault
               else ⟨DynamicStringBuffer.mkDefault.m_data,
                     max 300 (3 * DynamicStringBuffer.mkDefault.capacity / 2), true⟩)
          ∧ ((DynamicStringBuffer.mkDefault.append ['x']).capacity
                = (DynamicStringBuffer.mkDefault.ensureCapacity
                    (DynamicStringBuffer.mkDefault.size + (['x'] : List Char).length)).capacity
              ∧ (DynamicStringBuffer.mkDefault.append ['x']).m_onHeap
                = (DynamicStringBuffer.mkDefault.ensureCapacity
                    (DynamicStringBuffer.mkDefault.size + (['x'] : List Char).length)).m_onHeap)
          ∧ ((DynamicStringBuffer.mkDefault.push_back 'y').capacity
                = (DynamicStringBuffer.mkDefault.ensureCapacity
                    (DynamicStringBuffer.mkDefault.size + 1)).capacity
              ∧ (DynamicStringBuffer.mkDefault.push_back 'y').m_onHeap
                = (DynamicStringBuffer.mkDefault.ensureCapacity
                    (DynamicStringBuffer.mkDefault.size + 1)).m_onHeap)) :=
  ⟨by decide,
   C5_growth_policy DynamicStringBuffer.mkDefault 300 ['x'] 'y' (by decide) (by decide)⟩

/-- Claim C8: `clear()` sets the size to 0 and changes nothing else: the
capacity and the storage tier discriminator are unchanged. -/
theorem C8_clear_frame (b : DynamicStringBuffer) :
    b.clear.size = 0
      ∧ b.clear.capacity = b.capacity
      ∧ b.clear.m_onHeap = b.m_onHeap := by
  exact ⟨rfl, rfl, rfl⟩

/-- `returnToPool` never touches the statistics block. -/
theorem returnToPool_stats (cfg : PoolConfig) (s : PoolState)
    (b : Option DynamicStringBuffer) :
    (DynamicStringBufferPool.returnToPool cfg s b).m_stats = s.m_stats := by
  unfold DynamicStringBufferPool.returnToPool
  cases b with
  | none => rfl
  | some buf =>
      dsimp only
      split
      · rfl
      · split
        · rfl
        · split <;> rfl

/-- The three-way tier accounting of one `get` call: `totalRequests` grows
by one and exactly one tier counter grows by one. -/
theorem get_stats_step (cfg : PoolConfig) (s : PoolState) :
    ((DynamicStringBufferPool.get cfg s).2.m_stats.totalRequests
        = s.m_stats.totalRequests + 1)
      ∧ (((DynamicStringBufferPool.get cfg s).2.m_stats.threadLocalHits
            = s.m_stats.threadLocalHits + 1
          ∧ (DynamicStringBufferPool.get cfg s).2.m_stats.dynamicStringBufferPoolHits
            = s.m_stats.dynamicStringBufferPoolHits
          ∧ (DynamicStringBufferPool.get cfg s).2.m_stats.newAllocations
            = s.m_stats.newAllocations)
        ∨ ((DynamicStringBufferPool.get cfg s).2.m_stats.threadLocalHits
            = s.m_stats.threadLocalHits
          ∧ (DynamicStringBufferPool.get cfg s).2.m_stats.dynamicStringBufferPoolHits
            = s.m_stats.dynamicStringBufferPoolHits + 1
          ∧ (DynamicStringBufferPool.get cfg s).2.m_stats.newAllocations
            = s.m_stats.newAllocations)
        ∨ ((DynamicStringBufferPool.get cfg s).2.m_stats.threadLocalHits
            = s.m_stats.threadLocalHits
          ∧ (DynamicStringBufferPool.get cfg s).2.m_stats.dynamicStringBufferPoolHits
            = s.m_stats.dynamicStringBufferPoolHits
          ∧ (DynamicStringBufferPool.get cfg s).2.m_stats.newAllocations
            = s.m_stats.newAllocations + 1)) := by
  rcases s with ⟨tc, pool, stats⟩
  cases tc with
  | some buf =>
      refine ⟨?_, Or.inl ⟨?_, ?_, ?_⟩⟩ <;> rfl
  | none =>
      cases hp : pool.getLast? with
      | some buf =>
          refine ⟨?_, Or.inr (Or.inl ⟨?_, ?_, ?_⟩)⟩ <;>
            simp [DynamicStringBufferPool.get, hp]
      | none =>
          refine ⟨?_, Or.inr (Or.inr ⟨?_, ?_, ?_⟩)⟩ <;>
            simp [DynamicStringBufferPool.get, hp]

/-- Every single pool operation preserves the statistics ledger balance. -/
theorem applyPoolOp_consistent (cfg : PoolConfig) (s : PoolState) (op : PoolOp)
    (h : s.m_stats.consistent) : ((s.applyPoolOp cfg op).m_stats).consistent := by
  cases op with
  | opAcquire =>
      have hstep := get_stats_step cfg s
      show ((DynamicStringBufferPool.get cfg s).2.m_stats).consistent
      unfold PoolStatistics.consistent at h ⊢
      rcases hstep with ⟨ht, h1 | h1 | h1⟩ <;>
        · rw [ht, h1.1, h1.2.1, h1.2.2]
          omega
  | opRelease b =>
      show (DynamicStringBufferPool.returnToPool cfg s b).m_stats.consistent
      rw [returnToPool_stats]
      exact h
  | opPoolClear => exact h
  | opClearAll => exact rfl
  | opResetStats => exact rfl

/-- The ledger balance holds along every operation sequence from the
initial state. -/
theorem applyPoolOps_consistent (cfg : PoolConfig) (ops : List PoolOp) :
    ∀ s : PoolState, s.m_stats.consistent →
      ((PoolState.applyPoolOps cfg s ops).m_stats).consistent := by
  induction ops with
  | nil => exact fun s h => h
  | cons op rest ih =>
      intro s h
      exact ih _ (applyPoolOp_consistent cfg s op h)

/-- Claim C3: after each completed acquire the statistics satisfy
`totalRequests = threadLocalHits + sharedHits + newAllocations`, and every
acquire path (thread-local hit, shared-pool hit, fresh allocation)
increments `totalRequests` exactly once and exactly one of the three tier
counters exactly once. -/
theorem C3_statistics_invariant (cfg : PoolConfig) :
    (∀ s : PoolState,
      ((DynamicStringBufferPool.get cfg s).2.m_stats.totalRequests
          = s.m_stats.totalRequests + 1)
        ∧ (((DynamicStringBufferPool.get cfg s).2.m_stats.threadLocalHits
              = s.m_stats.threadLocalHits + 1
            ∧ (DynamicStringBufferPool.get cfg s).2.m_stats.dynamicStringBufferPoolHits
              = s.m_stats.dynamicStringBufferPoolHits
            ∧ (DynamicStringBufferPool.get cfg s).2.m_stats.newAllocations
              = s.m_stats.newAllocations)
          ∨ ((DynamicStringBufferPool.get cfg s).2.m_stats.threadLocalHits
              = s.m_stats.threadLocalHits
            ∧ (DynamicStringBufferPool.get cfg s).2.m_stats.dynamicStringBufferPoolHits
              = s.m_stats.dynamicStringBufferPoolHits + 1
            ∧ (DynamicStringBufferPool.get cfg s).2.m_stats.newAllocations
              = s.m_stats.newAllocations)
          ∨ ((DynamicStringBufferPool.get cfg s).2.m_stats.threadLocalHits
              = s.m_stats.threadLocalHits
            ∧ (DynamicStringBufferPool.get cfg s).2.m_stats.dynamicStringBufferPoolHits
              = s.m_stats.dynamicStringBufferPoolHits
            ∧ (DynamicStringBufferPool.get cfg s).2.m_stats.newAllocations
              = s.m_stats.newAllocations + 1)))
      ∧ ∀ ops : List PoolOp,
          ((PoolState.applyPoolOps cfg initialPoolState ops).m_stats).consistent :=
  ⟨fun s => get_stats_step cfg s,
   fun ops => applyPoolOps_consistent cfg ops initialPoolState rfl⟩

/-- A list member survives `dropLast` into the original list. -/
theorem mem_of_getLast?_eq_some {α : Type} {l : List α} {a : α}
    (h : l.getLast? = some a) : a ∈ l := by
  obtain ⟨hne, hx⟩ := List.mem_getLast?_eq_getLast (Option.mem_def.mpr h)
  rw [hx]
  exact List.getLast_mem hne

/-- Every single pool operation preserves the retained-capacity bound on
the tiers. -/
theorem applyPoolOp_retentionInv (cfg : PoolConfig) (s : PoolState) (op : PoolOp)
    (h : s.retentionInv cfg) : ((s.applyPoolOp cfg op).retentionInv cfg) := by
  obtain ⟨htc, hpool⟩ := h
  cases op with
  | opAcquire =>
      show ((DynamicStringBufferPool.get cfg s).2.retentionInv cfg)
      rcases s with ⟨tc, pool, stats⟩
      cases tc with
      | some buf =>
          exact ⟨by simp [DynamicStringBufferPool.get], hpool⟩
      | none =>
          cases hp : pool.getLast? with
          | some buf =>
              refine ⟨by simp [DynamicStringBufferPool.get, hp],
                fun b hb => hpool b ?_⟩
              simp only [DynamicStringBufferPool.get, hp] at hb
              exact List.mem_of_mem_dropLast hb
          | none =>
              refine ⟨by simp [DynamicStringBufferPool.get, hp], fun b hb => hpool b ?_⟩
              simpa [DynamicStringBufferPool.get, hp] using hb
  | opRelease ob =>
      show ((DynamicStringBufferPool.returnToPool cfg s ob).retentionInv cfg)
      unfold DynamicStringBufferPool.returnToPool
      cases ob with
      | none => exact ⟨htc, hpool⟩
      | some buf =>
          dsimp only
          split
          · exact ⟨htc, hpool⟩
          · rename_i hcap
            have hle : buf.capacity ≤ cfg.m_maximumRetainedCapacity :=
              Nat.le_of_not_lt hcap
            split
            · exact ⟨by simpa using hle, hpool⟩
            · split
              · refine ⟨htc, fun b hb => ?_⟩
                rcases List.mem_append.mp hb with hb | hb
                · exact hpool b hb
                · rw [List.mem_singleton.mp hb]
                  exact hle
              · exact ⟨htc, hpool⟩
  | opPoolClear =>
      show ((DynamicStringBufferPool.clear s).2.retentionInv cfg)
      exact ⟨by simp [DynamicStringBufferPool.clear],
        by simp [DynamicStringBufferPool.clear]⟩
  | opClearAll =>
      show ((StringBuilderPool.clear s).2.retentionInv cfg)
      exact ⟨by simp [StringBuilderPool.clear, DynamicStringBufferPool.clear,
          DynamicStringBufferPool.resetStats],
        by simp [StringBuilderPool.clear, DynamicStringBufferPool.clear,
          DynamicStringBufferPool.resetStats]⟩
  | opResetStats => exact ⟨htc, hpool⟩

/-- The retained-capacity bound holds along every operation sequence from
the initial state. -/
theorem applyPoolOps_retentionInv (cfg : PoolConfig) (ops : List PoolOp) :
    ∀ s : PoolState, s.retentionInv cfg →
      ((PoolState.applyPoolOps cfg s ops).retentionInv cfg) := by
  induction ops with
  | nil => exact fun s h => h
  | cons op rest ih =>
      intro s h
      exact ih _ (applyPoolOp_retentionInv cfg s op h)

/-- Claim C4: releasing a buffer whose capacity exceeds
`maxRetainedCapacity` stores it in no tier (the pool state and the
reported size are unchanged; the source deletes the buffer), and along
every operation sequence every buffer held in the thread-local slot or the
shared pool is within the retained-capacity bound. -/
theorem C4_oversized_buffers_never_pooled :
    (∀ (cfg : PoolConfig) (s : PoolState) (buf : DynamicStringBuffer),
      buf.capacity > cfg.m_maximumRetainedCapacity →
        DynamicStringBufferPool.returnToPool cfg s (some buf) = s
          ∧ DynamicStringBufferPool.size
              (DynamicStringBufferPool.returnToPool cfg s (some buf))
            = DynamicStringBufferPool.size s)
      ∧ ∀ (cfg : PoolConfig) (ops : List PoolOp),
          ((PoolState.applyPoolOps cfg initialPoolState ops).retentionInv cfg) := by
  constructor
  · intro cfg s buf hcap
    have heq : DynamicStringBufferPool.returnToPool cfg s (some buf) = s := by
      unfold DynamicStringBufferPool.returnToPool
      dsimp only
      rw [if_pos hcap]
    exact ⟨heq, by rw [heq]⟩
  · intro cfg ops
    exact applyPoolOps_retentionInv cfg ops initialPoolState
      ⟨by simp [initialPoolState], by simp [initialPoolState]⟩

/-- Claim C4, witness: releasing a pre-sized buffer of capacity 3000 into
the empty singleton-configured pool changes nothing. -/
theorem C4_oversized_buffers_never_pooled_witness :
    (DynamicStringBuffer.mkWithCapacity 3000).capacity
        > defaultPoolConfig.m_maximumRetainedCapacity
      ∧ (DynamicStringBufferPool.returnToPool defaultPoolConfig initialPoolState
            (some (DynamicStringBuffer.mkWithCapacity 3000)) = initialPoolState
          ∧ DynamicStringBufferPool.size
              (DynamicStringBufferPool.returnToPool defaultPoolConfig initialPoolState
                (some (DynamicStringBuffer.mkWithCapacity 3000)))
            = DynamicStringBufferPool.size initialPoolState) :=
  ⟨by decide,
   C4_oversized_buffers_never_pooled.1 defaultPoolConfig initialPoolState
     (DynamicStringBuffer.mkWithCapacity 3000) (by decide)⟩

/-- Releasing a retainable buffer while the thread-local slot is empty
stores it exactly there. -/
theorem returnToPool_to_empty_slot (cfg : PoolConfig) (s : PoolState)
    (buf : DynamicStringBuffer)
    (hcap : buf.capacity ≤ cfg.m_maximumRetainedCapacity)
    (htc : s.t_cachedBuffer = none) :
    DynamicStringBufferPool.returnToPool cfg s (some buf)
      = { s with t_cachedBuffer := some buf } := by
  unfold DynamicStringBufferPool.returnToPool
  dsimp only
  rw [if_neg (Nat.not_lt.mpr hcap), htc]

/-- Evaluation of `get` on a state whose thread-local slot is occupied. -/
theorem get_cached_eq (cfg : PoolConfig) (buf : DynamicStringBuffer)
    (pool : List DynamicStringBuffer) (stats : PoolStatistics) :
    DynamicStringBufferPool.get cfg ⟨some buf, pool, stats⟩
      = (buf.clear,
         ⟨none, pool,
          { stats with
            totalRequests := stats.totalRequests + 1,
            threadLocalHits := stats.threadLocalHits + 1 }⟩) := rfl

/-- Evaluation of `get` on a state with empty slot and non-empty shared
pool. -/
theorem get_shared_eq (cfg : PoolConfig) (pool : List DynamicStringBuffer)
    (stats : PoolStatistics) (buf : DynamicStringBuffer)
    (hp : pool.getLast? = some buf) :
    DynamicStringBufferPool.get cfg ⟨none, pool, stats⟩
      = (buf.clear,
         ⟨none, pool.dropLast,
          { stats with
            totalRequests := stats.totalRequests + 1,
            dynamicStringBufferPoolHits := stats.dynamicStringBufferPoolHits + 1 }⟩) := by
  unfold DynamicStringBufferPool.get
  dsimp only
  rw [hp]

/-- Evaluation of `get` on a state with empty slot and empty shared pool. -/
theorem get_fresh_eq (cfg : PoolConfig) (pool : List DynamicStringBuffer)
    (stats : PoolStatistics) (hp : pool.getLast? = none) :
    DynamicStringBufferPool.get cfg ⟨none, pool, stats⟩
      = (DynamicStringBuffer.mkDefault.reserve cfg.m_initialCapacity,
         ⟨none, pool,
          { stats with
            totalRequests := stats.totalRequests + 1,
            newAllocations := stats.newAllocations + 1 }⟩) := by
  unfold DynamicStringBufferPool.get
  dsimp only
  rw [hp]

/-- One cycle under the singleton configuration: the tier bound is kept,
the thread-local slot ends occupied, the thread-local hit counter never
drops, and it grows by exactly one whenever the slot was occupied at the
start of the cycle. -/
theorem cycle_default_step (s : PoolState)
    (h : s.retentionInv defaultPoolConfig) :
    ((s.cycle defaultPoolConfig).retentionInv defaultPoolConfig)
      ∧ ((s.cycle defaultPoolConfig).t_cachedBuffer.isSome = true)
      ∧ s.m_stats.threadLocalHits ≤ (s.cycle defaultPoolConfig).m_stats.threadLocalHits
      ∧ (s.t_cachedBuffer.isSome = true →
          (s.cycle defaultPoolConfig).m_stats.threadLocalHits
            = s.m_stats.threadLocalHits + 1) := by
  obtain ⟨htc, hpool⟩ := h
  rcases s with ⟨tc, pool, stats⟩
  cases tc with
  | some buf =>
      have hcap : buf.capacity ≤ defaultPoolConfig.m_maximumRetainedCapacity :=
        htc buf (by simp)
      have hcyc : PoolState.cycle defaultPoolConfig ⟨some buf, pool, stats⟩
          = ⟨some buf.clear, pool,
             { stats with
               totalRequests := stats.totalRequests + 1,
               threadLocalHits := stats.threadLocalHits + 1 }⟩ := by
        unfold PoolState.cycle
        rw [get_cached_eq]
        exact returnToPool_to_empty_slot _ _ _ hcap rfl
      rw [hcyc]
      refine ⟨⟨?_, hpool⟩, rfl, Nat.le_succ _, fun _ => rfl⟩
      intro b hb
      simp only [Option.toList_some, List.mem_singleton] at hb
      rw [hb]
      exact hcap
  | none =>
      cases hp : pool.getLast? with
      | some buf =>
          have hmem : buf ∈ pool := mem_of_getLast?_eq_some hp
          have hcap : buf.capacity ≤ defaultPoolConfig.m_maximumRetainedCapacity :=
            hpool buf hmem
          have hcyc : PoolState.cycle defaultPoolConfig ⟨none, pool, stats⟩
              = ⟨some buf.clear, pool.dropLast,
                 { stats with
                   totalRequests := stats.totalRequests + 1,
                   dynamicStringBufferPoolHits := stats.dynamicStringBufferPoolHits + 1 }⟩ := by
            unfold PoolState.cycle
            rw [get_shared_eq _ _ _ _ hp]
            exact returnToPool_to_empty_slot _ _ _ hcap rfl
          rw [hcyc]
          refine ⟨⟨?_, fun b hb => hpool b (List.mem_of_mem_dropLast hb)⟩,
            rfl, Nat.le_refl _, fun hcontra => by simp at hcontra⟩
          intro b hb
          simp only [Option.toList_some, List.mem_singleton] at hb
          rw [hb]
          exact hcap
      | none =>
          have hcap : (DynamicStringBuffer.mkDefault.reserve
                defaultPoolConfig.m_initialCapacity).capacity
              ≤ defaultPoolConfig.m_maximumRetainedCapacity := by decide
          have hcyc : PoolState.cycle defaultPoolConfig ⟨none, pool, stats⟩
              = ⟨some (DynamicStringBuffer.mkDefault.reserve
                        defaultPoolConfig.m_initialCapacity), pool,
                 { stats with
                   totalRequests := stats.totalRequests + 1,
                   newAllocations := stats.newAllocations + 1 }⟩ := by
            unfold PoolState.cycle
            rw [get_fresh_eq _ _ _ hp]
            exact returnToPool_to_empty_slot _ _ _ hcap rfl
          rw [hcyc]
          refine ⟨⟨?_, hpool⟩, rfl, Nat.le_refl _,
            fun hcontra => by simp at hcontra⟩
          intro b hb
          simp only [Option.toList_some, List.mem_singleton] at hb
          rw [hb]
          exact hcap

/-- From a state whose thread-local slot is occupied, `n` cycles score
exactly `n` further thread-local hits. -/
theorem cycles_tl_hits_from_cached (n : Nat) :
    ∀ s : PoolState, s.retentionInv defaultPoolConfig →
      s.t_cachedBuffer.isSome = true →
        (PoolState.cycles defaultPoolConfig s n).m_stats.threadLocalHits
          = s.m_stats.threadLocalHits + n := by
  induction n with
  | zero => exact fun s _ _ => rfl
  | succ n ih =>
      intro s hInv hSome
      obtain ⟨hInv1, hSome1, _, hExact⟩ := cycle_default_step s hInv
      have := ih (s.cycle defaultPoolConfig) hInv1 hSome1
      show (PoolState.cycles defaultPoolConfig (s.cycle defaultPoolConfig) n).m_stats.threadLocalHits = _
      rw [this, hExact hSome]
      omega

/-- Claim C7: for every `N >= 1`, after `N` sequential acquire-then-release
cycles by one thread under the singleton configuration, starting from any
pool state whose tier buffers respect the retained-capacity bound (the
invariant every reachable pool state satisfies), the thread-local hit
counter has increased by at least `N - 1`: only the first acquire may miss
the thread-local slot. -/
theorem C7_sequential_cycles_thread_local (s : PoolState) (N : Nat)
    (hInv : s.retentionInv defaultPoolConfig) (hN : 1 ≤ N) :
    s.m_stats.threadLocalHits + N
      ≤ (PoolState.cycles defaultPoolConfig s N).m_stats.threadLocalHits + 1 := by
  cases N with
  | zero => exact absurd hN (by decide)
  | succ n =>
      obtain ⟨hInv1, hSome1, hMono, _⟩ := cycle_default_step s hInv
      have hrest := cycles_tl_hits_from_cached n (s.cycle defaultPoolConfig) hInv1 hSome1
      show (PoolState.cycles defaultPoolConfig (s.cycle defaultPoolConfig) n).m_stats.threadLocalHits + 1 ≥ _
      rw [hrest]
      omega

/-- Claim C7, witness: three cycles from the initial empty pool state score
two thread-local hits. -/
theorem C7_sequential_cycles_thread_local_witness :
    (initialPoolState.retentionInv defaultPoolConfig) ∧ 1 ≤ 3
      ∧ initialPoolState.m_stats.threadLocalHits + 3
          ≤ (PoolState.cycles defaultPoolConfig initialPoolState 3).m_stats.threadLocalHits + 1 :=
  ⟨⟨by simp [initialPoolState], by simp [initialPoolState]⟩, by decide,
   C7_sequential_cycles_thread_local initialPoolState 3
     ⟨by simp [initialPoolState], by simp [initialPoolState]⟩ (by decide)⟩

/-- Claim C9: `StringBuilderPool::clear()` resets the statistics (all four
counters read zero afterwards) in addition to emptying the shared pool and
the calling thread cached slot. -/
theorem C9_clear_resets_statistics (s : PoolState) :
    ((StringBuilderPool.clear s).2).m_stats = PoolStatistics.zero
      ∧ ((StringBuilderPool.clear s).2).m_pool = []
      ∧ ((StringBuilderPool.clear s).2).t_cachedBuffer = none := by
  exact ⟨rfl, rfl, rfl⟩

/-- Claim C6: on a lease in the Disposed state (validity flag down, as
after explicit disposal, the destructor path, or being moved from), each
of `create()`, `buffer()` and `toString()` fails with the invalid-state
error and returns nothing; on an Active lease (flag up, holding a buffer)
all three succeed. Disposal and being moved from indeed leave the validity
flag down. -/
theorem C6_disposed_lease_operations (l : StringBuilderLease) :
    (l.m_valid = false →
        l.create = Except.error LeaseError.invalidState
          ∧ l.bufferOf = Except.error LeaseError.invalidState
          ∧ l.toString = Except.error LeaseError.invalidState)
      ∧ (∀ b : DynamicStringBuffer, l.m_valid = true → l.m_buffer = some b →
          l.create = Except.ok b
            ∧ l.bufferOf = Except.ok b
            ∧ l.toString = Except.ok b.toString)
      ∧ (∀ (cfg : PoolConfig) (p : PoolState),
          (l.dispose cfg p).1.m_valid = false)
      ∧ (StringBuilderLease.moveCtor l).2.m_valid = false := by
  refine ⟨?_, ?_, ?_, rfl⟩
  · intro hv
    refine ⟨?_, ?_, ?_⟩ <;>
      simp [StringBuilderLease.create, StringBuilderLease.bufferOf,
        StringBuilderLease.toString, hv]
  · intro b hv hb
    refine ⟨?_, ?_, ?_⟩ <;>
      simp [StringBuilderLease.create, StringBuilderLease.bufferOf,
        StringBuilderLease.toString, hv, hb]
  · intro cfg p
    unfold StringBuilderLease.dispose
    split
    · rfl
    · rename_i hv
      simpa using hv

/-- Claim C6, witness: a concrete disposed lease fails all three
operations and a concrete active lease succeeds in all three. -/
theorem C6_disposed_lease_operations_witness :
    ((StringBuilderLease.mk none false).create = Except.error LeaseError.invalidState
        ∧ (StringBuilderLease.mk none false).bufferOf = Except.error LeaseError.invalidState
        ∧ (StringBuilderLease.mk none false).toString = Except.error LeaseError.invalidState)
      ∧ ((StringBuilderLease.mk (some DynamicStringBuffer.mkDefault) true).create
            = Except.ok DynamicStringBuffer.mkDefault
          ∧ (StringBuilderLease.mk (some DynamicStringBuffer.mkDefault) true).bufferOf
            = Except.ok DynamicStringBuffer.mkDefault
          ∧ (StringBuilderLease.mk (some DynamicStringBuffer.mkDefault) true).toString
            = Except.ok DynamicStringBuffer.mkDefault.toString) :=
  ⟨(C6_disposed_lease_operations ⟨none, false⟩).1 rfl,
   (C6_disposed_lease_operations ⟨some DynamicStringBuffer.mkDefault, true⟩).2.1
     DynamicStringBuffer.mkDefault rfl rfl⟩

/-- Claim C10: move-assignment between two distinct leases whose
destination is Active holding buffer `B` and whose source is Active
holding buffer `Bp` first hands `B` to `returnToPool` exactly once (the
fourth component lists every buffer passed to `returnToPool` during the
assignment), then leaves the destination Active holding `Bp` and the
source Disposed — no buffer is leaked or double-released. -/
theorem C10_lease_move_assignment (cfg : PoolConfig) (p : PoolState)
    (B Bp : DynamicStringBuffer) :
    StringBuilderLease.moveAssign cfg ⟨some B, true⟩ ⟨some Bp, true⟩ p
      = (⟨some Bp, true⟩, ⟨none, false⟩,
         DynamicStringBufferPool.returnToPool cfg p (some B), [B]) := rfl
